import Mathlib

/-!
Verification development for the Relax reverse-mode AD draft (`AD_Draft.md`)
and the accompanying operator sources (`grad.cc`, `unary.cc`, `op_common.h`).

The IR and the pass state are shallowly embedded; the pseudocode fragments of
the draft (`Addition`, `ReplaceExprByVar`, `UpdateExprMap`,
`BuildEmptyNestedTupleExpr`, `AdditionInTuple`, the AD-Version-1 reverse walk)
are translated definition by definition.
-/

set_option maxRecDepth 8000

namespace RelaxAD

mutual
/-- Normalized Relax expressions as used by the AD draft: variable references,
tuple constructors, tuple projections, operator calls, plus shape/dtype/scalar
literal leaves that the synthesized `relax.zeros` / `relax.ones` calls carry.
Child lists are a mutual inductive so that equality stays decidable. -/
inductive Expr where
  | varRef (x : String)
  | tupleCtor (elems : ExprList)
  | tupleGetItem (t : Expr) (idx : Nat)
  | call (op : String) (args : ExprList)
  | shapeE (dims : List Nat)
  | dtypeE (dt : String)
  | constE (n : Int)
/-- A list of expressions (children of `tupleCtor` / `call`). -/
inductive ExprList where
  | nil
  | cons (e : Expr) (es : ExprList)
end
deriving instance DecidableEq for Expr
deriving instance DecidableEq for ExprList
deriving instance Repr for Expr
deriving instance Repr for ExprList

mutual
/-- Structural type of a Relax variable: a tensor leaf (shape, dtype) or a
tuple of structural types. -/
inductive StructType where
  | tensor (shape : List Nat) (dtype : String)
  | tuple (fields : StructTypeList)
/-- A list of structural types (fields of a tuple type). -/
inductive StructTypeList where
  | nil
  | cons (t : StructType) (ts : StructTypeList)
end
deriving instance DecidableEq for StructType
deriving instance DecidableEq for StructTypeList
deriving instance Repr for StructType
deriving instance Repr for StructTypeList

/-- Convert a plain list of expressions into an `ExprList`. -/
def EL : List Expr → ExprList
  | [] => .nil
  | e :: es => .cons e (EL es)

/-- Convert a plain list of structural types into a `StructTypeList`. -/
def STL : List StructType → StructTypeList
  | [] => .nil
  | t :: ts => .cons t (STL ts)

/-- Length of an `ExprList`. -/
def ExprList.length : ExprList → Nat
  | .nil => 0
  | .cons _ es => 1 + es.length

/-- Positional access into an `ExprList` with a default. -/
def ExprList.getD : ExprList → Nat → Expr → Expr
  | .nil, _, d => d
  | .cons e _, 0, _ => e
  | .cons _ es, n + 1, d => es.getD n d

/-- Association-list lookup keyed by decidable equality (models `Map::Get`). -/
def alookup {κ α : Type} [DecidableEq κ] : List (κ × α) → κ → Option α
  | [], _ => none
  | (k, v) :: rest, key => if key = k then some v else alookup rest key

/-- Error kinds of the pass, following section 7 of the design. -/
inductive ADErr where
  | notAFunction
  | unsupportedBody
  | nonScalarReturn
  | badRequireGrads
  | unknownGradient
  | gradientShapeMismatch
  | internalInvariantViolation
deriving DecidableEq, Repr

/-- The state of one `Gradient` pass invocation: the two adjoint maps
(`adjoint_expr_map_`, `adjoint_var_map_` of the draft), the
`adjoint_expr_to_var_` memo, the adjoint bindings emitted so far (in emission
order), and a counter for anonymous fresh names. -/
structure ADState where
  adjointExprMap : List (String × Expr)
  adjointVarMap : List (String × String)
  exprToVar : List (Expr × String)
  emitted : List (String × Expr)
  counter : Nat
deriving DecidableEq, Repr

/-- The empty pass state. -/
def initState : ADState :=
  { adjointExprMap := [], adjointVarMap := [], exprToVar := [], emitted := [],
    counter := 0 }

/-- Record a new accumulated adjoint expression for a forward variable
(`adjoint_expr_map_.Set`). -/
def setAdjointExpr (st : ADState) (x : String) (e : Expr) : ADState :=
  { st with adjointExprMap := (x, e) :: st.adjointExprMap }

/-- Draft `BindAndEmit`: append a binding to the output body and remember the
expression-to-variable memoization (`adjoint_expr_to_var_`), which is what lets
`ReplaceExprByVar` later replace an emitted adjoint expression by its
variable. -/
def emitAndBind (st : ADState) (v : String) (e : Expr) : ADState :=
  { st with emitted := st.emitted ++ [(v, e)], exprToVar := (e, v) :: st.exprToVar }

/-- Draft `ReplaceExprByVar`: replace an expression by its memoized
adjoint variable when one exists, otherwise keep the expression. -/
def ReplaceExprByVar (memo : List (Expr × String)) (e : Expr) : Expr :=
  match alookup memo e with
  | some v => .varRef v
  | none => e

mutual
/-- Draft `Addition` (final version): the tuple-aware generalized
addition.  A `Tuple` increment is added componentwise (the draft asserts the
base is then a tuple of the same arity; a non-tuple base falls back to a plain
add, mirroring the failed assertion being unreachable under invariant I3);
otherwise a single `relax.add` call is built, with `ReplaceExprByVar` applied
to the increment. -/
def Addition (memo : List (Expr × String)) : Expr → Expr → Expr
  | base, .tupleCtor incs =>
    match base with
    | .tupleCtor bases => .tupleCtor (AdditionZip memo bases incs)
    | b => .call "relax.add"
        (.cons b (.cons (ReplaceExprByVar memo (.tupleCtor incs)) .nil))
  | base, inc => .call "relax.add" (.cons base (.cons (ReplaceExprByVar memo inc) .nil))
/-- Componentwise `Addition` over the children of two tuple expressions. -/
def AdditionZip (memo : List (Expr × String)) : ExprList → ExprList → ExprList
  | .cons b bs, .cons i is => .cons (Addition memo b i) (AdditionZip memo bs is)
  | _, _ => .nil
end

mutual
/-- Draft `BuildEmptyNestedTupleExpr`: the zero skeleton of a
structural type, with a `relax.zeros` call (carrying shape and dtype) at every
tensor leaf and nested tuple constructors above. -/
def BuildEmptyNestedTupleExpr : StructType → Expr
  | .tensor shape dt => .call "relax.zeros" (.cons (.shapeE shape) (.cons (.dtypeE dt) .nil))
  | .tuple fields => .tupleCtor (BuildEmptyNestedTupleList fields)
/-- Zero skeletons of a list of field types. -/
def BuildEmptyNestedTupleList : StructTypeList → ExprList
  | .nil => .nil
  | .cons t ts => .cons (BuildEmptyNestedTupleExpr t) (BuildEmptyNestedTupleList ts)
end

/-- Scan of the first tuple layer for `AdditionInTuple`: the component at the
requested position is replaced by its `Addition` with the increment. -/
def AdditionInTupleAux (memo : List (Expr × String)) :
    ExprList → Nat → Expr → ExprList
  | .nil, _, _ => .nil
  | .cons e es, 0, inc => .cons (Addition memo e inc) es
  | .cons e es, pos + 1, inc => .cons e (AdditionInTupleAux memo es pos inc)

/-- Draft `AdditionInTuple`: add an increment at one position of a
tuple expression, keeping every other component unchanged.  A non-tuple first
argument is returned unchanged (the draft only ever calls this on the tuple
stored in `adjoint_expr_map_`). -/
def AdditionInTuple (memo : List (Expr × String)) (t : Expr) (pos : Nat) (inc : Expr) :
    Expr :=
  match t with
  | .tupleCtor es => .tupleCtor (AdditionInTupleAux memo es pos inc)
  | e => e

/-- The `adjoint_expr_map_` update rule of the draft (section 2): on the first
update the increment is assigned, afterwards it is folded in with the
generalized `Addition`. -/
def accumulateUpdate (memo : List (Expr × String)) (m : List (String × Expr))
    (x : String) (inc : Expr) : List (String × Expr) :=
  match alookup m x with
  | none => (x, inc) :: m
  | some old => (x, Addition memo old inc) :: m

/-- Allocate the anonymous fresh variable of index `n`. -/
def freshName (n : Nat) : String :=
  "v" ++ toString n

mutual
/-- Draft `UpdateExprMap` (final version): walk the binding's tuple
structure and the adjoint expression side by side; at a variable leaf the
increment is first named — reusing the memoized variable when the expression
was emitted before, otherwise emitting a fresh binding and recording it in
`adjoint_expr_to_var_` — and the named variable is folded into
`adjoint_expr_map_` (first update assigns, as in AD-Version 1). -/
def UpdateExprMap (base : Expr) (inc : Expr) (st : ADState) : ADState :=
  match base with
  | .varRef x =>
    (match alookup st.exprToVar inc with
     | some v =>
       { st with adjointExprMap :=
           accumulateUpdate st.exprToVar st.adjointExprMap x (.varRef v) }
     | none =>
       let v := freshName st.counter
       let st1 := emitAndBind { st with counter := st.counter + 1 } v inc
       { st1 with adjointExprMap :=
           accumulateUpdate st1.exprToVar st1.adjointExprMap x (.varRef v) })
  | .tupleCtor bs =>
    (match inc with
     | .tupleCtor is => UpdateExprMapZip bs is st
     | _ => st)
  | _ => st
/-- Componentwise `UpdateExprMap` over a tuple binding's children. -/
def UpdateExprMapZip (bs : ExprList) (is : ExprList) (st : ADState) : ADState :=
  match bs, is with
  | .cons b bs, .cons i is => UpdateExprMapZip bs is (UpdateExprMap b i st)
  | _, _ => st
end

/-- An operator gradient rule (`FPrimalGradient`): from the original call's
arguments and the output adjoint variable, one partial expression per
argument. -/
def GradFn : Type :=
  ExprList → Expr → List Expr

/-- Fold the per-argument partials of a call into `adjoint_expr_map_`
(the loop of AD-Version 1).  After normalization every argument is a variable
reference; a non-variable argument (e.g. a constant) consumes its partial
without contributing an adjoint slot. -/
def foldPartials (st : ADState) : ExprList → List Expr → ADState
  | .cons (.varRef x) args, p :: ps =>
    foldPartials
      { st with adjointExprMap := accumulateUpdate st.exprToVar st.adjointExprMap x p }
      args ps
  | .cons _ args, _ :: ps => foldPartials st args ps
  | _, _ => st

/-- Draft propagation for a `TupleGetItem` binding.  On a first-time update the
prose and Q&A of the draft require the zero skeleton built by
`BuildEmptyNestedTupleExpr` to be stored in `adjoint_expr_map_` before the
positional `AdditionInTuple`; when `storeSkeleton` is false the skeleton is
built and discarded exactly as in the pseudocode as written, so the subsequent
`adjoint_expr_map_` read of the tuple variable fails. -/
def tupleGetItemUpdate (storeSkeleton : Bool) (typeOf : String → StructType)
    (st : ADState) (x : String) (k : Nat) (ae : Expr) : Except ADErr ADState :=
  match alookup st.adjointExprMap x with
  | some base => .ok (setAdjointExpr st x (AdditionInTuple st.exprToVar base k ae))
  | none =>
    if storeSkeleton then
      let base := BuildEmptyNestedTupleExpr (typeOf x)
      let st1 := setAdjointExpr st x base
      .ok (setAdjointExpr st1 x (AdditionInTuple st1.exprToVar base k ae))
    else
      .error .internalInvariantViolation

/-- The seed `1` of the target adjoint, written `R.ones((), "float32")` in the
draft's examples. -/
def onesScalar : Expr :=
  .call "relax.ones" (.cons (.shapeE []) (.cons (.dtypeE "float32") .nil))

/-- Process the relevant case of one reverse-walk step: emit the adjoint
binding for the visited variable and dispatch on the form of its bound value
(primitive call, assignment, tuple constructor, tuple projection, constant). -/
def processRelevant (gm : List (String × GradFn)) (typeOf : String → StructType)
    (storeSkeleton : Bool) (st : ADState) (adjVar : String) (ae : Expr)
    (value : Expr) : Except ADErr ADState :=
  let st1 := emitAndBind st adjVar ae
  match value with
  | .call op args =>
    (match alookup gm op with
     | none => .error .unknownGradient
     | some g => .ok (foldPartials st1 args (g args (.varRef adjVar))))
  | .varRef x =>
    .ok { st1 with adjointExprMap :=
        accumulateUpdate st1.exprToVar st1.adjointExprMap x ae }
  | .tupleCtor _ => .ok (UpdateExprMap value ae st1)
  | .tupleGetItem (.varRef x) k => tupleGetItemUpdate storeSkeleton typeOf st1 x k ae
  | _ => .ok st1

/-- One step of the AD-Version-1 reverse walk over a forward binding:
allocate and record the adjoint variable (unconditionally, as in the
pseudocode), then either skip an irrelevant binding, seed the target's adjoint
with ones, or process the binding's value. -/
def processBinding (gm : List (String × GradFn)) (typeOf : String → StructType)
    (storeSkeleton : Bool) (target : String) (st : ADState)
    (b : String × Expr) : Except ADErr ADState :=
  let adjVar := b.1 ++ "_adjoint"
  let st0 := { st with adjointVarMap := (b.1, adjVar) :: st.adjointVarMap }
  match alookup st0.adjointExprMap b.1 with
  | some ae => processRelevant gm typeOf storeSkeleton st0 adjVar ae b.2
  | none =>
    if b.1 = target then
      processRelevant gm typeOf storeSkeleton (setAdjointExpr st0 b.1 onesScalar)
        adjVar onesScalar b.2
    else
      .ok st0

/-- The reverse walk: process the (already reversed) forward bindings in
order, stopping at the first failing step. -/
def runBindings (gm : List (String × GradFn)) (typeOf : String → StructType)
    (storeSkeleton : Bool) (target : String) (st : ADState) :
    List (String × Expr) → Except ADErr ADState
  | [] => .ok st
  | b :: bs =>
    match processBinding gm typeOf storeSkeleton target st b with
    | .error e => .error e
    | .ok st1 => runBindings gm typeOf storeSkeleton target st1 bs

/-- A normalized Relax function: parameters and locals with their structural
types, a straight-line body of bindings, and a return expression (a variable
reference for pass inputs). -/
structure Func where
  name : String
  params : List (String × StructType)
  locals : List (String × StructType)
  body : List (String × Expr)
  ret : Expr
deriving DecidableEq, Repr

/-- Structural type of a variable of a function (defaulting to a scalar float
tensor for unannotated names). -/
def typeOfVar (f : Func) (x : String) : StructType :=
  (alookup (f.params ++ f.locals) x).getD (.tensor [] "float32")

/-- Find a function by name in a module. -/
def findFunc : List Func → String → Option Func
  | [], _ => none
  | f :: fs, n => if f.name = n then some f else findFunc fs n

/-- The parameters whose adjoints are requested: `require_grads` when given,
otherwise all parameters in declaration order. -/
def requestedParams (f : Func) (rg : Option (List String)) : List String :=
  rg.getD (f.params.map Prod.fst)

/-- The return value the driver assembles for the adjoint function: the pair
of the original return and the tuple of the requested parameters' adjoint
variables. -/
def adjointRetFor (f : Func) (rg : Option (List String)) : Expr :=
  .tupleCtor (.cons f.ret (.cons
    (.tupleCtor (EL ((requestedParams f rg).map fun p => .varRef (p ++ "_adjoint"))))
    .nil))

/-- Modelled from the spec: the driver of the pass (`gradient.cc`, which is
not part of this source tree; section 4.1 of the design and section 1 of the
draft describe it).  It looks up the target function, runs the reverse walk
seeded at the scalar return variable, then emits one `<param>_adjoint`
binding per requested parameter — a structural zero for a parameter that
stayed irrelevant — and assembles `<original>_adjoint` whose body is the
forward bindings followed by the adjoint bindings and whose return value is
`(original_return, (adjoint_of_p1, ...))` over `require_grads`, or over all
parameters in declaration order when `require_grads` is not given.  The
original module is kept as-is, with the new function appended. -/
def differentiate (mod : List Func) (fname : String) (rg : Option (List String))
    (gm : List (String × GradFn)) : Except ADErr (List Func) :=
  match findFunc mod fname with
  | none => .error .notAFunction
  | some f =>
    match f.ret with
    | .varRef target =>
      (match runBindings gm (typeOfVar f) true target initState f.body.reverse with
       | .error e => .error e
       | .ok st =>
         let gs := requestedParams f rg
         let paramAdj := gs.map fun p =>
           (p ++ "_adjoint",
            match alookup st.adjointExprMap p with
            | some e => e
            | none => BuildEmptyNestedTupleExpr (typeOfVar f p))
         .ok (mod ++ [{ name := f.name ++ "_adjoint", params := f.params,
                        locals := f.locals,
                        body := f.body ++ st.emitted ++ paramAdj,
                        ret := adjointRetFor f rg }]))
    | _ => .error .unsupportedBody

/-! ### Observations on expressions and pass results -/

mutual
/-- Number of `relax.add` operator calls inside an expression. -/
def addCount : Expr → Nat
  | .call op args => (if op = "relax.add" then 1 else 0) + addCountList args
  | .tupleCtor es => addCountList es
  | .tupleGetItem t _ => addCount t
  | _ => 0
/-- Number of `relax.add` operator calls inside a list of expressions. -/
def addCountList : ExprList → Nat
  | .nil => 0
  | .cons e es => addCount e + addCountList es
end

mutual
/-- Number of occurrences of a variable reference inside an expression. -/
def occCount (x : String) : Expr → Nat
  | .varRef y => if y = x then 1 else 0
  | .tupleCtor es => occCountList x es
  | .call _ args => occCountList x args
  | .tupleGetItem t _ => occCount x t
  | _ => 0
/-- Number of occurrences of a variable reference in a list of expressions. -/
def occCountList (x : String) : ExprList → Nat
  | .nil => 0
  | .cons e es => occCount x e + occCountList x es
end

/-- Number of uses of a variable in a function body (occurrences on the
right-hand sides of the bindings). -/
def usesCount (x : String) (body : List (String × Expr)) : Nat :=
  body.foldl (fun a b => a + occCount x b.2) 0

mutual
/-- Whether every leaf of an accumulation expression — everything under the
spine of tuple constructors and `relax.add` calls — is a variable reference. -/
def isVarLeafed : Expr → Bool
  | .varRef _ => true
  | .tupleCtor es => isVarLeafedList es
  | .call op args => if op = "relax.add" then isVarLeafedList args else false
  | _ => false
/-- Conjunction of `isVarLeafed` over a list of expressions. -/
def isVarLeafedList : ExprList → Bool
  | .nil => true
  | .cons e es => isVarLeafed e && isVarLeafedList es
end

/-- Whether an expression is a tuple constructor. -/
def isTupleCtorB : Expr → Bool
  | .tupleCtor _ => true
  | _ => false

/-- A placeholder function value. -/
def dfltFunc : Func :=
  { name := "", params := [], locals := [], body := [], ret := .constE 0 }

/-- The adjoint function produced by a successful pass invocation (the
function the driver appended to the module). -/
def adjointFn (r : Except ADErr (List Func)) : Func :=
  match r with
  | .ok m => (m.getLast?).getD dfltFunc
  | .error _ => dfltFunc

/-- The bound expression of a named binding in a function body. -/
def bindingExpr (f : Func) (x : String) : Expr :=
  (alookup f.body x).getD (.constE 0)

/-! ### The claimed tuple-constructor propagation, from the words of the
specification (section 4.2 together with the accumulator of section 4.4):
at a tuple-constructor binding, fold `TupleProj(A, i)` — `A` the freshly
named adjoint variable — into the adjoint of the i-th element, naming
non-variable increments and starting absent adjoints from a zero skeleton.
These definitions exist to be compared against the behavior of the draft's
code. -/

/-- Modelled from the spec: `name(inc)` of section 4.4 — a variable reference
is kept, otherwise the memo is consulted and on a miss a fresh binding is
emitted and recorded. -/
def specNameInc (st : ADState) (inc : Expr) : String × ADState :=
  match inc with
  | .varRef v => (v, st)
  | _ =>
    match alookup st.exprToVar inc with
    | some v => (v, st)
    | none =>
      let v := freshName st.counter
      (v, emitAndBind { st with counter := st.counter + 1 } v inc)

mutual
/-- Modelled from the spec: `nested_add` of section 4.4 — tuples are added
componentwise, and at a non-tuple base a single add of the named increment is
built. -/
def specNestedAdd (base : Expr) (inc : Expr) (st : ADState) : Expr × ADState :=
  match base, inc with
  | .tupleCtor bs, .tupleCtor is =>
    let (es, st1) := specNestedAddZip bs is st
    (.tupleCtor es, st1)
  | b, i =>
    let (v, st1) := specNameInc st i
    (.call "relax.add" (.cons b (.cons (.varRef v) .nil)), st1)
/-- Componentwise `specNestedAdd`. -/
def specNestedAddZip (bs : ExprList) (is : ExprList) (st : ADState) :
    ExprList × ADState :=
  match bs, is with
  | .cons b bs, .cons i is =>
    let (e, st1) := specNestedAdd b i st
    let (es, st2) := specNestedAddZip bs is st1
    (.cons e es, st2)
  | _, _ => (.nil, st)
end

/-- Modelled from the spec: `accumulate` of section 4.4 — an absent adjoint
starts from the zero skeleton of the variable's structural type. -/
def specAccumulate (typeOf : String → StructType) (st : ADState) (x : String)
    (inc : Expr) : ADState :=
  match alookup st.adjointExprMap x with
  | none =>
    let (e, st1) := specNestedAdd (BuildEmptyNestedTupleExpr (typeOf x)) inc st
    setAdjointExpr st1 x e
  | some old =>
    let (e, st1) := specNestedAdd old inc st
    setAdjointExpr st1 x e

/-- Modelled from the spec: the claimed `TupleCtor` dispatch of section 4.2 —
for each position `i`, fold the increment `TupleProj(A, i)` into the adjoint
of the i-th element. -/
def specTupleCtorFold (typeOf : String → StructType) (adjVar : String)
    (st : ADState) : Nat → ExprList → ADState
  | _, .nil => st
  | i, .cons (.varRef x) es =>
    specTupleCtorFold typeOf adjVar
      (specAccumulate typeOf st x (.tupleGetItem (.varRef adjVar) i)) (i + 1) es
  | i, .cons _ es => specTupleCtorFold typeOf adjVar st (i + 1) es

/-- Modelled from the spec: a whole reverse-walk step on a relevant
tuple-constructor binding as claimed — the adjoint variable is allocated and
the adjoint expression emitted as in the code, but the propagation folds
`TupleProj(A, i)` increments. -/
def specProcessTupleBinding (typeOf : String → StructType) (st : ADState)
    (b : String × Expr) : ADState :=
  let adjVar := b.1 ++ "_adjoint"
  let st0 := { st with adjointVarMap := (b.1, adjVar) :: st.adjointVarMap }
  match alookup st0.adjointExprMap b.1, b.2 with
  | some ae, .tupleCtor es => specTupleCtorFold typeOf adjVar (emitAndBind st0 adjVar ae) 0 es
  | _, _ => st0

/-! ### Gradient dispatch with the debug shape check (section 4.6) -/

/-- Whether each partial's structural type equals the type of the
corresponding call argument. -/
def typesOk (tyE : Expr → StructType) : List Expr → ExprList → Bool
  | p :: ps, .cons a args => decide (tyE p = tyE a) && typesOk tyE ps args
  | [], .nil => true
  | _, _ => false

/-- Modelled from the spec: the gradient dispatcher `partials_of` with the
debug-build verification of section 4.6 (`gradient.cc` is not part of this
source tree).  The registry is queried by operator name; a missing rule is
`UnknownGradient`, and a rule whose result does not have one partial per
argument with equal structural type fails with `GradientShapeMismatch`. -/
def checkedPartialsOf (gm : List (String × GradFn)) (tyE : Expr → StructType)
    (op : String) (args : ExprList) (outGrad : Expr) : Except ADErr (List Expr) :=
  match alookup gm op with
  | none => .error .unknownGradient
  | some g =>
    let ps := g args outGrad
    if decide (ps.length = args.length) && typesOk tyE ps args then .ok ps
    else .error .gradientShapeMismatch

/-! ### Backward operators of `grad.cc` -/

/-- A constructed Relax call with the `NLLLossAttrs` fields carried by the
backward operators of `grad.cc`. -/
structure RCall where
  op : String
  args : List Expr
  reduction : String
  ignoreIndex : Int
deriving DecidableEq, Repr

/-- Function `nll_loss_backward` of `grad.cc`: build the call to
`relax.grad.nll_loss_backward` with the reduction and ignore-index attributes;
the weights argument is appended only when it is defined. -/
def nll_loss_backward (output_grad predictions targets : Expr)
    (weights : Option Expr) (reduction : String) (ignore_index : Int) : RCall :=
  match weights with
  | some w =>
    { op := "relax.grad.nll_loss_backward",
      args := [output_grad, predictions, targets, w],
      reduction := reduction, ignoreIndex := ignore_index }
  | none =>
    { op := "relax.grad.nll_loss_backward",
      args := [output_grad, predictions, targets],
      reduction := reduction, ignoreIndex := ignore_index }

/-- Function `InferStructInfoNLLLossBackward` of `grad.cc`: the struct info of the
call is that of its second argument (the predictions). -/
def InferStructInfoNLLLossBackward (sinfoOf : Expr → StructType) (c : RCall) :
    StructType :=
  sinfoOf (c.args.getD 1 (.constE 0))

/-! ### Unary arithmetic operators (`op_common.h`, `unary.cc`) -/

/-- TVM data types as far as the unary inference needs them; `voidT` is the
unknown dtype (`IsUnknownDtype`). -/
inductive DataTypeM where
  | float (bits : Nat)
  | int (bits : Nat)
  | uint (bits : Nat)
  | boolT
  | voidT
deriving DecidableEq, Repr

/-- Predicate `DataType::is_float`. -/
def DataTypeM.isFloat : DataTypeM → Bool
  | .float _ => true
  | _ => false

/-- Model of `TensorStructInfo` as far as the unary inference needs it. -/
structure TensorSInfo where
  shape : List Nat
  dtype : DataTypeM
deriving DecidableEq, Repr

/-- The fatal diagnostic of the unary struct-info inference. -/
inductive InferFatal where
  | requiresFloatDtype
deriving DecidableEq, Repr

/-- Function `InferStructInfoUnary<require_float_dtype>` of `op_common.h`: report a
fatal diagnostic when a float dtype is required but the input's dtype is known
and is not float; otherwise return the input struct info unchanged. -/
def InferStructInfoUnary (require_float_dtype : Bool) (input_sinfo : TensorSInfo) :
    Except InferFatal TensorSInfo :=
  if require_float_dtype && !(input_sinfo.dtype = DataTypeM.voidT) &&
      !input_sinfo.dtype.isFloat then
    .error .requiresFloatDtype
  else
    .ok input_sinfo

/-- The unary arithmetic operators registered in `unary.cc` via
`RELAX_REGISTER_UNARY_ARITH_OP_AND_IMPL`, with their `require_float_dtype`
flag. -/
def unaryArithOps : List (String × Bool) :=
  [("relax.abs", false), ("relax.acos", true), ("relax.acosh", true),
   ("relax.asin", true), ("relax.asinh", true), ("relax.atan", true),
   ("relax.atanh", true), ("relax.ceil", false), ("relax.cos", true),
   ("relax.cosh", true), ("relax.exp", true), ("relax.floor", false),
   ("relax.log", true), ("relax.negative", false), ("relax.round", false),
   ("relax.sigmoid", true), ("relax.sign", false), ("relax.sin", true),
   ("relax.sinh", true), ("relax.square", true), ("relax.sqrt", true),
   ("relax.tan", true), ("relax.tanh", true)]

/-- Struct-info inference for a registered unary arithmetic operator: look up
its `require_float_dtype` flag and run `InferStructInfoUnary` with it. -/
def inferUnaryForOp (op : String) (input_sinfo : TensorSInfo) :
    Option (Except InferFatal TensorSInfo) :=
  (alookup unaryArithOps op).map fun rf => InferStructInfoUnary rf input_sinfo

/-! ### Concrete fixtures (the draft's E.g. 1.1, the partial-tuple-update
scenario S5 of the design, and small states for the tuple propagation) -/

/-- A float32 tensor type of the given shape. -/
def f32 (s : List Nat) : StructType :=
  .tensor s "float32"

/-- A trivial structural-type assignment (every variable a scalar tensor). -/
def tyScalar : String → StructType :=
  fun _ => f32 []

/-- The function of the draft's E.g. 1.1:
`lv0 = add(x, y); gv0 = sum(lv0); return gv0`. -/
def eg11fn : Func :=
  { name := "main",
    params := [("x", f32 [5, 5]), ("y", f32 [5, 5])],
    locals := [("lv0", f32 [5, 5]), ("gv0", f32 [])],
    body := [("lv0", .call "relax.add" (EL [.varRef "x", .varRef "y"])),
             ("gv0", .call "relax.sum" (EL [.varRef "lv0"]))],
    ret := .varRef "gv0" }

/-- Gradient rules for `relax.add` (collapse-sum of the output adjoint per
argument) and `relax.sum` (broadcast of the output adjoint), as in the
draft's section 2. -/
def eg11gm : List (String × GradFn) :=
  [("relax.add", fun _ g =>
      [.call "relax.collapse_sum_to" (EL [g, .shapeE [5, 5]]),
       .call "relax.collapse_sum_to" (EL [g, .shapeE [5, 5]])]),
   ("relax.sum", fun _ g =>
      [.call "relax.broadcast_to" (EL [g, .shapeE [5, 5]])])]

/-- The pass applied to E.g. 1.1. -/
def eg11res : Except ADErr (List Func) :=
  differentiate [eg11fn] "main" none eg11gm

/-- The module produced for E.g. 1.1. -/
def eg11out : List Func :=
  match eg11res with
  | .ok m => m
  | .error _ => []

/-- Scenario S5: `u = t[0]; g = sum(u); return g` where `t` is a 3-tuple
parameter and only `u` is used downstream. -/
def s5fn : Func :=
  { name := "main",
    params := [("t", .tuple (STL [f32 [2, 2], f32 [3], f32 [4]]))],
    locals := [("u", f32 [2, 2]), ("g", f32 [])],
    body := [("u", .tupleGetItem (.varRef "t") 0),
             ("g", .call "relax.sum" (EL [.varRef "u"]))],
    ret := .varRef "g" }

/-- Gradient rule for `relax.sum` under the S5 shapes. -/
def s5gm : List (String × GradFn) :=
  [("relax.sum", fun _ g =>
      [.call "relax.broadcast_to" (EL [g, .shapeE [2, 2]])])]

/-- The pass applied to the S5 scenario. -/
def s5res : Except ADErr (List Func) :=
  differentiate [s5fn] "main" none s5gm

/-- The first reverse-walk step of E.g. 1.1 (the binding of `gv0`). -/
def eg11step1 : Except ADErr ADState :=
  processBinding eg11gm (typeOfVar eg11fn) true "gv0" initState
    ("gv0", .call "relax.sum" (EL [.varRef "lv0"]))

/-- The state after the first reverse-walk step of E.g. 1.1. -/
def eg11st1 : ADState :=
  match eg11step1 with
  | .ok st => st
  | .error _ => initState

/-- A pass state in the middle of a run: the tuple variable `c` has the fully
accumulated adjoint expression `(p, q)` from its two projections. -/
def tupleDemoSt : ADState :=
  { adjointExprMap := [("c", .tupleCtor (EL [.varRef "p", .varRef "q"]))],
    adjointVarMap := [], exprToVar := [], emitted := [], counter := 0 }

/-- The tuple-constructor binding `c = (a, b)`. -/
def tupleDemoBinding : String × Expr :=
  ("c", .tupleCtor (EL [.varRef "a", .varRef "b"]))

/-- Structural types for the tuple demo: `c` a pair of tensors. -/
def tupleDemoTy : String → StructType :=
  fun v => if v = "c" then .tuple (STL [f32 [2], f32 [2]]) else f32 [2]

/-- The draft's walker applied to the tuple demo binding. -/
def tupleDemoActual : Except ADErr ADState :=
  processBinding [] tupleDemoTy true "g" tupleDemoSt tupleDemoBinding

/-- The claimed (specification-side) walker applied to the same binding. -/
def tupleDemoClaimed : ADState :=
  specProcessTupleBinding tupleDemoTy tupleDemoSt tupleDemoBinding

/-- The state produced by the draft's walker on the tuple demo binding. -/
def tupleDemoActualSt : ADState :=
  match tupleDemoActual with
  | .ok st => st
  | .error _ => initState

/-- Iterate the `adjoint_expr_map_` update rule for one variable over a list
of increments (the accumulation a variable receives, one update per use). -/
def iterUpdates (memo : List (Expr × String)) (x : String)
    (m : List (String × Expr)) : List Expr → List (String × Expr)
  | [] => m
  | p :: ps => iterUpdates memo x (accumulateUpdate memo m x p) ps

mutual
/-- Number of projections `TupleProj(x, i)` taken of a given variable inside
an expression. -/
def projOfCount (x : String) : Expr → Nat
  | .tupleGetItem t _ => (if t = .varRef x then 1 else 0) + projOfCount x t
  | .tupleCtor es => projOfCountList x es
  | .call _ args => projOfCountList x args
  | _ => 0
/-- Sum of `projOfCount` over a list of expressions. -/
def projOfCountList (x : String) : ExprList → Nat
  | .nil => 0
  | .cons e es => projOfCount x e + projOfCountList x es
end

/-- Sum of `projOfCount` over every expression stored or emitted by a pass
state (accumulated adjoints, memo keys, emitted bindings). -/
def stateProjOfCount (x : String) (st : ADState) : Nat :=
  st.adjointExprMap.foldl (fun a b => a + projOfCount x b.2) 0 +
    st.emitted.foldl (fun a b => a + projOfCount x b.2) 0

/-- Whether a pass result is a success. -/
def exceptOk {α : Type} : Except ADErr α → Bool
  | .ok _ => true
  | .error _ => false

/-- A one-rule registry for exercising the checked gradient dispatcher: the
rule returns the output adjoint itself as the partial of the one argument. -/
def demoRules : List (String × GradFn) :=
  [("relax.exp", fun _ g => [g])]

/-- A constant structural-type oracle for the checked dispatcher demo. -/
def demoTyE : Expr → StructType :=
  fun _ => f32 [3]

/-! ### Helper lemmas -/

/-- Lookup after a shadowing insert returns the inserted value. -/
theorem alookup_cons_self {κ α : Type} [DecidableEq κ] (l : List (κ × α))
    (k : κ) (v : α) : alookup ((k, v) :: l) k = some v := by
  simp [alookup]

/-- An irrelevant non-target binding: the walker records the adjoint variable
allocated before the relevance check (as AD-Version 1 does) and changes
nothing else. -/
theorem processBinding_irrelevant (gm : List (String × GradFn))
    (ty : String → StructType) (ss : Bool) (target : String) (st : ADState)
    (v : String) (e : Expr) (h1 : alookup st.adjointExprMap v = none)
    (h2 : v ≠ target) :
    processBinding gm ty ss target st (v, e) =
      .ok { st with adjointVarMap := (v, v ++ "_adjoint") :: st.adjointVarMap } := by
  simp [processBinding, h1, h2]

/-- A relevant (or target) call binding whose operator has no registered
gradient fails with `UnknownGradient`. -/
theorem processBinding_unknown_trigger (gm : List (String × GradFn))
    (ty : String → StructType) (ss : Bool) (target : String) (st : ADState)
    (v op : String) (args : ExprList)
    (hrel : alookup st.adjointExprMap v ≠ none ∨ v = target)
    (hg : alookup gm op = none) :
    processBinding gm ty ss target st (v, .call op args) =
      .error .unknownGradient := by
  cases ha : alookup st.adjointExprMap v with
  | some ae => simp [processBinding, ha, processRelevant, hg]
  | none =>
    rcases hrel with hl | hr
    · exact absurd ha hl
    · subst hr
      simp [processBinding, ha, processRelevant, hg]

/-- With the skeleton stored (the draft's prose behavior), the `TupleGetItem`
propagation never fails. -/
theorem tupleGetItemUpdate_store_ok (ty : String → StructType) (st : ADState)
    (x : String) (k : Nat) (ae : Expr) :
    ∃ st1, tupleGetItemUpdate true ty st x k ae = .ok st1 := by
  unfold tupleGetItemUpdate
  cases h : alookup st.adjointExprMap x <;> simp [h]

/-- In the store-skeleton walker, the only failure of the relevant-case
dispatch is an unregistered gradient at a call. -/
theorem processRelevant_error_iff (gm : List (String × GradFn))
    (ty : String → StructType) (st : ADState) (adjVar : String) (ae : Expr)
    (value : Expr) (err : ADErr)
    (h : processRelevant gm ty true st adjVar ae value = .error err) :
    err = ADErr.unknownGradient ∧
    ∃ op args, value = .call op args ∧ alookup gm op = none := by
  cases value with
  | call op args =>
    cases hg : alookup gm op with
    | none =>
      simp [processRelevant, hg] at h
      exact ⟨h.symm, op, args, rfl, hg⟩
    | some g => simp [processRelevant, hg] at h
  | varRef x => simp [processRelevant] at h
  | tupleCtor es => simp [processRelevant] at h
  | tupleGetItem t k =>
    cases t with
    | varRef x =>
      simp only [processRelevant] at h
      rcases tupleGetItemUpdate_store_ok ty (emitAndBind st adjVar ae) x k ae with
        ⟨st1, hok⟩
      rw [hok] at h
      exact absurd h (by simp)
    | tupleCtor es => simp [processRelevant] at h
    | tupleGetItem t i => simp [processRelevant] at h
    | call o a => simp [processRelevant] at h
    | shapeE d => simp [processRelevant] at h
    | dtypeE d => simp [processRelevant] at h
    | constE n => simp [processRelevant] at h
  | shapeE d => simp [processRelevant] at h
  | dtypeE d => simp [processRelevant] at h
  | constE n => simp [processRelevant] at h

/-- In the store-skeleton walker, a failing step is always `UnknownGradient`,
at a call binding with an unregistered operator that is relevant or is the
target. -/
theorem processBinding_error_iff (gm : List (String × GradFn))
    (ty : String → StructType) (target : String) (st : ADState)
    (b : String × Expr) (err : ADErr)
    (h : processBinding gm ty true target st b = .error err) :
    err = ADErr.unknownGradient ∧
    ∃ op args, b.2 = .call op args ∧ alookup gm op = none ∧
      (alookup st.adjointExprMap b.1 ≠ none ∨ b.1 = target) := by
  rcases b with ⟨v, e⟩
  cases ha : alookup st.adjointExprMap v with
  | some ae =>
    simp only [processBinding, ha] at h
    rcases processRelevant_error_iff _ _ _ _ _ _ _ h with ⟨he, op, args, hv, hg⟩
    exact ⟨he, op, args, hv, hg, Or.inl (by simp [ha])⟩
  | none =>
    simp only [processBinding, ha] at h
    by_cases ht : v = target
    · rw [if_pos ht] at h
      rcases processRelevant_error_iff _ _ _ _ _ _ _ h with ⟨he, op, args, hv, hg⟩
      exact ⟨he, op, args, hv, hg, Or.inr ht⟩
    · rw [if_neg ht] at h
      exact absurd h (by simp)

/-- In the store-skeleton walker, a failing reverse walk always fails with
`UnknownGradient`. -/
theorem runBindings_error_unknown (gm : List (String × GradFn))
    (ty : String → StructType) (target : String) (bs : List (String × Expr)) :
    ∀ st err, runBindings gm ty true target st bs = .error err →
      err = ADErr.unknownGradient := by
  induction bs with
  | nil => intro st err h; simp [runBindings] at h
  | cons b bs ih =>
    intro st err h
    unfold runBindings at h
    cases hp : processBinding gm ty true target st b with
    | error e =>
      rw [hp] at h
      cases h
      exact (processBinding_error_iff _ _ _ _ _ _ hp).1
    | ok st1 =>
      rw [hp] at h
      exact ih st1 err h

/-- If the walk reaches a state where a call binding with an unregistered
operator is relevant (or the target), the whole walk fails with
`UnknownGradient`. -/
theorem runBindings_trigger_error (gm : List (String × GradFn))
    (ty : String → StructType) (target : String) (bs1 : List (String × Expr)) :
    ∀ st st1 v op args bs2,
      runBindings gm ty true target st bs1 = .ok st1 →
      (alookup st1.adjointExprMap v ≠ none ∨ v = target) →
      alookup gm op = none →
      runBindings gm ty true target st (bs1 ++ (v, .call op args) :: bs2) =
        .error ADErr.unknownGradient := by
  induction bs1 with
  | nil =>
    intro st st1 v op args bs2 h hrel hg
    simp only [runBindings] at h
    cases h
    rw [List.nil_append]
    unfold runBindings
    rw [processBinding_unknown_trigger gm ty true target st v op args hrel hg]
  | cons b bs ih =>
    intro st st1 v op args bs2 h hrel hg
    unfold runBindings at h
    cases hp : processBinding gm ty true target st b with
    | error e => rw [hp] at h; exact absurd h (by simp)
    | ok st2 =>
      rw [hp] at h
      simp only [List.cons_append, runBindings, hp]
      exact ih st2 st1 v op args bs2 h hrel hg

/-- The adjoint-function accessor reads the appended function of a successful
result. -/
theorem adjointFn_ok (m : List Func) (g : Func) :
    adjointFn (.ok (m ++ [g])) = g := by
  rw [adjointFn, List.getLast?_concat]
  rfl

/-- Finding a function by name yields a member of the module with that
name. -/
theorem findFunc_some (mod : List Func) (fname : String) (f : Func) :
    findFunc mod fname = some f → f ∈ mod ∧ f.name = fname := by
  induction mod with
  | nil => intro h; simp [findFunc] at h
  | cons a as ih =>
    intro h
    unfold findFunc at h
    by_cases ha : a.name = fname
    · rw [if_pos ha] at h
      cases h
      exact ⟨List.mem_cons_self _ _, ha⟩
    · rw [if_neg ha] at h
      rcases ih h with ⟨h1, h2⟩
      exact ⟨List.mem_cons_of_mem _ h1, h2⟩

/-- Replacing an add-free expression by its memoized variable (or keeping it)
stays add-free. -/
theorem addCount_replace (memo : List (Expr × String)) (p : Expr)
    (h : addCount p = 0) : addCount (ReplaceExprByVar memo p) = 0 := by
  unfold ReplaceExprByVar
  cases hl : alookup memo p
  · exact h
  · simp [addCount]

/-- Folding an add-free non-tuple increment into an accumulated adjoint emits
exactly one more `relax.add` call. -/
theorem addCount_Addition (memo : List (Expr × String)) (old p : Expr)
    (h1 : isTupleCtorB p = false) (h2 : addCount p = 0) :
    addCount (Addition memo old p) = addCount old + 1 := by
  cases p with
  | tupleCtor es => simp [isTupleCtorB] at h1
  | varRef x =>
    simp [Addition, addCount, addCountList, addCount_replace memo _ h2]
    omega
  | tupleGetItem t i =>
    simp [Addition, addCount, addCountList, addCount_replace memo _ h2]
    omega
  | call o a =>
    simp [Addition, addCount, addCountList, addCount_replace memo _ h2]
    omega
  | shapeE d =>
    simp [Addition, addCount, addCountList, addCount_replace memo _ h2]
    omega
  | dtypeE d =>
    simp [Addition, addCount, addCountList, addCount_replace memo _ h2]
    omega
  | constE n =>
    simp [Addition, addCount, addCountList, addCount_replace memo _ h2]
    omega

/-- Once an adjoint is present, each further update adds exactly one add
call. -/
theorem iter_updates_addCount (memo : List (Expr × String)) (x : String) :
    ∀ (ps : List Expr) (m : List (String × Expr)) (cur : Expr),
      (∀ p ∈ ps, addCount p = 0 ∧ isTupleCtorB p = false) →
      alookup m x = some cur →
      addCount ((alookup (iterUpdates memo x m ps) x).getD (.constE 0)) =
        addCount cur + ps.length := by
  intro ps
  induction ps with
  | nil => intro m cur h hl; simp [iterUpdates, hl]
  | cons p ps ih =>
    intro m cur h hl
    rw [iterUpdates]
    have hacc : accumulateUpdate memo m x p = (x, Addition memo cur p) :: m := by
      simp [accumulateUpdate, hl]
    rw [hacc]
    rw [ih _ _ (fun q hq => h q (List.mem_cons_of_mem _ hq)) (alookup_cons_self _ _ _)]
    rw [addCount_Addition memo cur p (h p (List.mem_cons_self _ _)).2
      (h p (List.mem_cons_self _ _)).1]
    simp [List.length_cons]
    omega

/-- Lengths agree when the partial types check out. -/
theorem typesOk_length (tyE : Expr → StructType) :
    ∀ (ps : List Expr) (args : ExprList),
      typesOk tyE ps args = true → ps.length = args.length := by
  intro ps
  induction ps with
  | nil =>
    intro args h
    cases args with
    | nil => rfl
    | cons a as => simp [typesOk] at h
  | cons p ps ih =>
    intro args h
    cases args with
    | nil => simp [typesOk] at h
    | cons a as =>
      simp only [typesOk, Bool.and_eq_true] at h
      simp only [List.length_cons, ExprList.length]
      rw [ih as h.2]
      omega

/-- Pointwise reading of a successful type check. -/
theorem typesOk_pointwise (tyE : Expr → StructType) :
    ∀ (ps : List Expr) (args : ExprList),
      typesOk tyE ps args = true →
      ∀ i, i < ps.length →
        tyE (ps.getD i (.constE 0)) = tyE (args.getD i (.constE 0)) := by
  intro ps
  induction ps with
  | nil => intro args h i hi; simp at hi
  | cons p ps ih =>
    intro args h i hi
    cases args with
    | nil => simp [typesOk] at h
    | cons a as =>
      simp only [typesOk, Bool.and_eq_true, decide_eq_true_eq] at h
      cases i with
      | zero => exact h.1
      | succ j =>
        simp only [List.getD_cons_succ, ExprList.getD]
        exact ih as h.2 j (by simpa using hi)

/-! ### Claim theorems -/

/-- Claim C1: a successful `differentiate` keeps the input module intact and
appends one new function named `<original>_adjoint` whose parameters are the
original's, whose return value is the pair of the original return and the
tuple of the adjoint variables of exactly the requested parameters (all
parameters in declaration order when `require_grads` is not given), each of
which is bound in the new function's body. -/
theorem differentiate_module_shape :
    ∀ (mod : List Func) (fname : String) (rg : Option (List String))
      (gm : List (String × GradFn)) (m1 : List Func) (f : Func),
      differentiate mod fname rg gm = .ok m1 →
      findFunc mod fname = some f →
      m1 = mod ++ [adjointFn (differentiate mod fname rg gm)] ∧
      f ∈ m1 ∧
      (adjointFn (differentiate mod fname rg gm)).name = fname ++ "_adjoint" ∧
      (adjointFn (differentiate mod fname rg gm)).params = f.params ∧
      (adjointFn (differentiate mod fname rg gm)).ret = adjointRetFor f rg ∧
      ((requestedParams f rg).all fun p =>
        decide ((p ++ "_adjoint") ∈
          (adjointFn (differentiate mod fname rg gm)).body.map Prod.fst)) = true := by
  intro mod fname rg gm m1 f h hf
  rcases findFunc_some mod fname f hf with ⟨hmem, hname⟩
  simp only [differentiate, hf] at h
  cases he : f.ret with
  | varRef target =>
    simp only [he] at h
    cases hw : runBindings gm (typeOfVar f) true target initState f.body.reverse with
    | error e => simp [hw] at h
    | ok st =>
      simp only [hw, Except.ok.injEq] at h
      subst h
      simp only [differentiate, hf, he, hw]
      rw [adjointFn_ok]
      refine ⟨rfl, List.mem_append_left _ hmem, ?_, rfl, rfl, ?_⟩
      · show f.name ++ "_adjoint" = fname ++ "_adjoint"
        rw [hname]
      · rw [List.all_eq_true]
        intro p hp
        rw [decide_eq_true_eq]
        rw [List.map_append]
        refine List.mem_append_right _ ?_
        rw [List.map_map]
        exact List.mem_map.mpr ⟨p, hp, rfl⟩
  | tupleCtor es => simp [he] at h
  | tupleGetItem t i => simp [he] at h
  | call o a => simp [he] at h
  | shapeE d => simp [he] at h
  | dtypeE d => simp [he] at h
  | constE n => simp [he] at h

/-- Claim C1 witness: the pass applied to the draft's E.g. 1.1 produces the
module `[main, main_adjoint]` with return
`(gv0, (x_adjoint, y_adjoint))`. -/
theorem differentiate_module_shape_witness :
    eg11out = [eg11fn] ++ [adjointFn (differentiate [eg11fn] "main" none eg11gm)] ∧
    eg11fn ∈ eg11out ∧
    (adjointFn (differentiate [eg11fn] "main" none eg11gm)).name =
      "main" ++ "_adjoint" ∧
    (adjointFn (differentiate [eg11fn] "main" none eg11gm)).params = eg11fn.params ∧
    (adjointFn (differentiate [eg11fn] "main" none eg11gm)).ret =
      adjointRetFor eg11fn none ∧
    ((requestedParams eg11fn none).all fun p =>
      decide ((p ++ "_adjoint") ∈
        (adjointFn (differentiate [eg11fn] "main" none eg11gm)).body.map Prod.fst)) =
      true :=
  differentiate_module_shape [eg11fn] "main" none eg11gm eg11out eg11fn rfl rfl

/-- Claim C2 counterexample: at an irrelevant binding (`lv1`, not the target,
with no `adjoint_expr` entry) the walker does NOT leave all pass state
unchanged — AD-Version 1 records `adjoint_var` for `lv1` before the relevance
check, so the variable map gains an entry. -/
theorem reverse_walk_irrelevant_counterexample :
    processBinding [] tyScalar true "gv0" initState
        ("lv1", .call "relax.sub" (EL [.varRef "x", .varRef "y"])) =
      .ok { initState with adjointVarMap := [("lv1", "lv1_adjoint")] } ∧
    alookup initState.adjointExprMap "lv1" = none ∧
    initState.adjointVarMap = [] ∧
    alookup ([("lv1", "lv1_adjoint")] : List (String × String)) "lv1" =
      some "lv1_adjoint" := by
  refine ⟨?_, rfl, rfl, ?_⟩ <;> rfl

/-- Claim C2 (amended): at a forward binding whose variable has no
`adjoint_expr` entry and is not the target, the walker emits no adjoint
binding and updates no `adjoint_expr` entry, but it does record a fresh
`adjoint_var` entry for the variable (allocated before the relevance check,
as in AD-Version 1); apart from that entry the state is unchanged. -/
theorem reverse_walk_irrelevant_skip :
    ∀ (gm : List (String × GradFn)) (ty : String → StructType) (ss : Bool)
      (target : String) (st : ADState) (v : String) (e : Expr),
      alookup st.adjointExprMap v = none → v ≠ target →
      processBinding gm ty ss target st (v, e) =
        .ok { st with adjointVarMap := (v, v ++ "_adjoint") :: st.adjointVarMap } :=
  fun gm ty ss target st v e h1 h2 =>
    processBinding_irrelevant gm ty ss target st v e h1 h2

/-- Claim C2 (amended) witness: a concrete irrelevant binding is skipped with
only the adjoint-variable allocation recorded. -/
theorem reverse_walk_irrelevant_skip_witness :
    alookup initState.adjointExprMap "w" = none ∧
    processBinding [] tyScalar true "gv0" initState ("w", .constE 0) =
      .ok { initState with adjointVarMap := [("w", "w_adjoint")] } :=
  ⟨rfl, reverse_walk_irrelevant_skip [] tyScalar true "gv0" initState "w"
    (.constE 0) rfl (by decide)⟩

/-- Claim C7: the pass fails with `UnknownGradient` exactly at a call binding
whose operator has no registered gradient rule while the binding is relevant
(has an `adjoint_expr` entry) or is the target: (1) irrelevant bindings never
fail; (2) a relevant-or-target unregistered call fails with `UnknownGradient`;
(3) every step failure is of that form; (4) every failing walk fails with
`UnknownGradient`; (5) a reachable relevant unregistered call makes the whole
walk fail; (6) a failing invocation produces no output module. -/
theorem unknown_gradient_exactly :
    (∀ (gm : List (String × GradFn)) (ty : String → StructType) (ss : Bool)
       (target : String) (st : ADState) (v : String) (e : Expr),
       alookup st.adjointExprMap v = none → v ≠ target →
       processBinding gm ty ss target st (v, e) =
         .ok { st with adjointVarMap := (v, v ++ "_adjoint") :: st.adjointVarMap }) ∧
    (∀ (gm : List (String × GradFn)) (ty : String → StructType) (ss : Bool)
       (target : String) (st : ADState) (v op : String) (args : ExprList),
       (alookup st.adjointExprMap v ≠ none ∨ v = target) →
       alookup gm op = none →
       processBinding gm ty ss target st (v, .call op args) =
         .error .unknownGradient) ∧
    (∀ (gm : List (String × GradFn)) (ty : String → StructType) (target : String)
       (st : ADState) (b : String × Expr) (err : ADErr),
       processBinding gm ty true target st b = .error err →
       err = ADErr.unknownGradient ∧
       ∃ op args, b.2 = .call op args ∧ alookup gm op = none ∧
         (alookup st.adjointExprMap b.1 ≠ none ∨ b.1 = target)) ∧
    (∀ (gm : List (String × GradFn)) (ty : String → StructType) (target : String)
       (bs : List (String × Expr)) (st : ADState) (err : ADErr),
       runBindings gm ty true target st bs = .error err →
       err = ADErr.unknownGradient) ∧
    (∀ (gm : List (String × GradFn)) (ty : String → StructType) (target : String)
       (bs1 : List (String × Expr)) (st st1 : ADState) (v op : String)
       (args : ExprList) (bs2 : List (String × Expr)),
       runBindings gm ty true target st bs1 = .ok st1 →
       (alookup st1.adjointExprMap v ≠ none ∨ v = target) →
       alookup gm op = none →
       runBindings gm ty true target st (bs1 ++ (v, .call op args) :: bs2) =
         .error ADErr.unknownGradient) ∧
    (∀ (mod : List Func) (fname : String) (rg : Option (List String))
       (gm : List (String × GradFn)) (err : ADErr) (m : List Func),
       differentiate mod fname rg gm = .error err →
       differentiate mod fname rg gm ≠ .ok m) := by
  refine ⟨processBinding_irrelevant, processBinding_unknown_trigger,
    fun gm ty target st b err h => processBinding_error_iff gm ty target st b err h,
    fun gm ty target bs st err h => runBindings_error_unknown gm ty target bs st err h,
    fun gm ty target bs1 st st1 v op args bs2 h1 h2 h3 =>
      runBindings_trigger_error gm ty target bs1 st st1 v op args bs2 h1 h2 h3,
    fun mod fname rg gm err m h1 h2 => ?_⟩
  rw [h1] at h2
  exact absurd h2 (by simp)

/-- Claim C7 witness: the target binding itself, with an empty gradient
registry, fails with `UnknownGradient`. -/
theorem unknown_gradient_exactly_witness :
    processBinding [] tyScalar true "g" initState
        ("g", .call "relax.sub" (EL [.varRef "a", .varRef "b"])) =
      .error ADErr.unknownGradient :=
  unknown_gradient_exactly.2.1 [] tyScalar true "g" initState "g" "relax.sub"
    (EL [.varRef "a", .varRef "b"]) (Or.inr rfl) rfl

/-- Claim C9: `nll_loss_backward` builds a call to the operator
`relax.grad.nll_loss_backward` whose attributes carry the given reduction and
ignore-index, whose argument list is `[output_grad, predictions, targets,
weights]` when weights is defined and `[output_grad, predictions, targets]`
otherwise, and whose inferred struct info equals that of the predictions
argument. -/
theorem nll_loss_backward_builds_call :
    ∀ (og pred targ : Expr) (w : Option Expr) (red : String) (ii : Int)
      (sinfoOf : Expr → StructType),
      (nll_loss_backward og pred targ w red ii).op =
          "relax.grad.nll_loss_backward" ∧
      (nll_loss_backward og pred targ w red ii).reduction = red ∧
      (nll_loss_backward og pred targ w red ii).ignoreIndex = ii ∧
      (nll_loss_backward og pred targ w red ii).args =
        (match w with
         | some x => [og, pred, targ, x]
         | none => [og, pred, targ]) ∧
      InferStructInfoNLLLossBackward sinfoOf (nll_loss_backward og pred targ w red ii) =
        sinfoOf pred := by
  intro og pred targ w red ii sinfoOf
  cases w <;>
    simp [nll_loss_backward, InferStructInfoNLLLossBackward, List.getD]

/-- Claim C10: for a unary arithmetic operator registered with
`require_float_dtype = true`, struct-info inference reports the fatal
diagnostic exactly when the input dtype is known and not a float dtype, and
otherwise returns the input struct info unchanged. -/
theorem unary_float_dtype_requirement :
    ∀ (op : String) (s : TensorSInfo),
      alookup unaryArithOps op = some true →
      inferUnaryForOp op s = some (InferStructInfoUnary true s) ∧
      (InferStructInfoUnary true s = .error .requiresFloatDtype ↔
        (s.dtype ≠ DataTypeM.voidT ∧ s.dtype.isFloat = false)) ∧
      ((s.dtype = DataTypeM.voidT ∨ s.dtype.isFloat = true) →
        InferStructInfoUnary true s = .ok s) := by
  intro op s h
  refine ⟨by simp [inferUnaryForOp, h], ?_, ?_⟩
  · rcases s with ⟨sh, d⟩
    by_cases hv : d = DataTypeM.voidT
    · subst hv
      simp [InferStructInfoUnary, DataTypeM.isFloat]
    · cases hd : d.isFloat <;> simp [InferStructInfoUnary, hv, hd]
  · rintro (h1 | h1) <;> simp [InferStructInfoUnary, h1]

/-- Claim C10 witness: `relax.exp` requires a float dtype, and on an `int32`
input the inference fails with the fatal diagnostic. -/
theorem unary_float_dtype_requirement_witness :
    inferUnaryForOp "relax.exp" ⟨[2], DataTypeM.int 32⟩ =
      some (.error .requiresFloatDtype) := by
  have h := unary_float_dtype_requirement "relax.exp" ⟨[2], DataTypeM.int 32⟩
    (by decide)
  rw [h.1, h.2.1.mpr ⟨by decide, by decide⟩]

/-- Claim C3 counterexample: in scenario S5 the tuple parameter `t` has
exactly one use, yet its emitted adjoint contains one `relax.add` call — the
positional fold adds the single increment onto the zero-skeleton leaf, so a
single use does not receive its partial directly and the count
`max(0, uses - 1) = 0` is violated. -/
theorem tuple_leaf_add_count_counterexample :
    usesCount "t" s5fn.body = 1 ∧
    exceptOk s5res = true ∧
    addCount (bindingExpr (adjointFn s5res) "t_adjoint") = 1 ∧
    ¬ (addCount (bindingExpr (adjointFn s5res) "t_adjoint") =
        usesCount "t" s5fn.body - 1) := by
  refine ⟨rfl, rfl, rfl, by decide⟩

/-- Claim C3 (amended): for a TENSOR-path accumulation — the
`adjoint_expr_map_` update rule of the draft, first update assigning and each
later update folding through `Addition` — a variable with `u ≥ 1` updates by
add-free non-tuple partials accumulates exactly `u - 1` add calls; tuple
adjoints updated positionally through `TupleGetItem` instead gain one add per
use, against the zero-skeleton leaf (no emission-time peephole exists in the
draft). -/
theorem tensor_accumulation_add_count :
    ∀ (memo : List (Expr × String)) (x : String) (ps : List Expr)
      (m : List (String × Expr)),
      ps ≠ [] →
      (∀ p ∈ ps, addCount p = 0 ∧ isTupleCtorB p = false) →
      alookup m x = none →
      addCount ((alookup (iterUpdates memo x m ps) x).getD (.constE 0)) =
        ps.length - 1 := by
  intro memo x ps m hne h hl
  cases ps with
  | nil => exact absurd rfl hne
  | cons p ps =>
    rw [iterUpdates]
    have hacc : accumulateUpdate memo m x p = (x, p) :: m := by
      simp [accumulateUpdate, hl]
    rw [hacc]
    rw [iter_updates_addCount memo x ps _ p
      (fun q hq => h q (List.mem_cons_of_mem _ hq)) (alookup_cons_self _ _ _)]
    rw [(h p (List.mem_cons_self _ _)).1]
    simp

/-- Claim C3 (amended) witness: two add-free updates accumulate into exactly
one add call. -/
theorem tensor_accumulation_add_count_witness :
    addCount ((alookup (iterUpdates [] "a" [] [.constE 1, .constE 2]) "a").getD
      (.constE 0)) = 1 :=
  tensor_accumulation_add_count [] "a" [.constE 1, .constE 2] [] (by decide)
    (by decide) rfl

/-- Claim C4 counterexample: after the first reverse step of E.g. 1.1 the
stored adjoint expression of `lv0` is the raw partial
`broadcast_to(gv0_adjoint, (5,5))` — a call, not a variable reference — so
leaves of stored adjoint expressions are NOT always variable references: the
call path folds partials through `ReplaceExprByVar` without naming them. -/
theorem adjoint_leaf_discipline_counterexample :
    eg11step1 = .ok eg11st1 ∧
    alookup eg11st1.adjointExprMap "lv0" =
      some (.call "relax.broadcast_to" (EL [.varRef "gv0_adjoint", .shapeE [5, 5]])) ∧
    isVarLeafed
      (.call "relax.broadcast_to" (EL [.varRef "gv0_adjoint", .shapeE [5, 5]])) =
      false := by
  refine ⟨rfl, rfl, rfl⟩

/-- Claim C4 (amended): only the tuple-definition path (`UpdateExprMap`)
names non-`VarRef` increments before use — reusing the memoized variable on a
hit (emitting nothing) and otherwise emitting one fresh binding recorded in
the memo — while the plain `Addition` path merely substitutes a memoized
variable when one exists and otherwise folds the raw expression, so stored
adjoint expressions may keep non-variable leaves. -/
theorem update_expr_map_naming :
    (∀ (st : ADState) (x : String) (inc : Expr) (v : String),
       alookup st.exprToVar inc = some v →
       (UpdateExprMap (.varRef x) inc st).emitted = st.emitted ∧
       (UpdateExprMap (.varRef x) inc st).exprToVar = st.exprToVar ∧
       (UpdateExprMap (.varRef x) inc st).adjointExprMap =
         accumulateUpdate st.exprToVar st.adjointExprMap x (.varRef v)) ∧
    (∀ (st : ADState) (x : String) (inc : Expr),
       alookup st.exprToVar inc = none →
       (UpdateExprMap (.varRef x) inc st).emitted =
         st.emitted ++ [(freshName st.counter, inc)] ∧
       (UpdateExprMap (.varRef x) inc st).exprToVar =
         (inc, freshName st.counter) :: st.exprToVar ∧
       (UpdateExprMap (.varRef x) inc st).adjointExprMap =
         accumulateUpdate ((inc, freshName st.counter) :: st.exprToVar)
           st.adjointExprMap x (.varRef (freshName st.counter))) ∧
    (∀ (memo : List (Expr × String)) (b p : Expr),
       alookup memo p = none → isTupleCtorB p = false →
       Addition memo b p = .call "relax.add" (.cons b (.cons p .nil))) := by
  refine ⟨?_, ?_, ?_⟩
  · intro st x inc v h
    refine ⟨?_, ?_, ?_⟩ <;> simp [UpdateExprMap, h]
  · intro st x inc h
    refine ⟨?_, ?_, ?_⟩ <;> simp [UpdateExprMap, h, emitAndBind]
  · intro memo b p h1 h2
    cases p with
    | tupleCtor es => simp [isTupleCtorB] at h2
    | varRef x => simp [Addition, ReplaceExprByVar, h1]
    | tupleGetItem t i => simp [Addition, ReplaceExprByVar, h1]
    | call o a => simp [Addition, ReplaceExprByVar, h1]
    | shapeE d => simp [Addition, ReplaceExprByVar, h1]
    | dtypeE d => simp [Addition, ReplaceExprByVar, h1]
    | constE n => simp [Addition, ReplaceExprByVar, h1]

/-- Claim C4 (amended) witness: a memo miss at a variable leaf emits the
fresh binding `v0`, records it in the memo, and stores `v0` as the leaf's
adjoint. -/
theorem update_expr_map_naming_witness :
    (UpdateExprMap (.varRef "a") (.constE 5) initState).emitted =
      [("v0", .constE 5)] ∧
    (UpdateExprMap (.varRef "a") (.constE 5) initState).exprToVar =
      [(.constE 5, "v0")] ∧
    (UpdateExprMap (.varRef "a") (.constE 5) initState).adjointExprMap =
      [("a", .varRef "v0")] := by
  have h := update_expr_map_naming.2.1 initState "a" (.constE 5) rfl
  refine ⟨?_, ?_, ?_⟩
  · rw [h.1]; rfl
  · rw [h.2.1]; rfl
  · rw [h.2.2]; rfl

/-- Claim C5 counterexample: on the binding `c = (a, b)` with accumulated
adjoint `(p, q)`, the draft's walker folds the named components of
`adjoint_expr[c]` — its post-state contains NO projection of `c_adjoint`
anywhere, and the stored adjoint of `a` is the alias variable `v0` bound to
`p` — while the claimed behavior folds `TupleProj(c_adjoint, i)` increments,
yielding two such projections and a different stored adjoint for `a`. -/
theorem tuple_ctor_projection_counterexample :
    tupleDemoActual = .ok tupleDemoActualSt ∧
    stateProjOfCount "c_adjoint" tupleDemoActualSt = 0 ∧
    stateProjOfCount "c_adjoint" tupleDemoClaimed = 2 ∧
    alookup tupleDemoActualSt.adjointExprMap "a" = some (.varRef "v0") ∧
    alookup tupleDemoClaimed.adjointExprMap "a" =
      some (.call "relax.add" (EL [
        .call "relax.zeros" (EL [.shapeE [2], .dtypeE "float32"]),
        .varRef "v0"])) ∧
    alookup tupleDemoActualSt.adjointExprMap "a" ≠
      alookup tupleDemoClaimed.adjointExprMap "a" := by
  refine ⟨rfl, rfl, rfl, rfl, rfl, by decide⟩

/-- Claim C5 (amended): at a relevant tuple-constructor binding the walker
emits the adjoint binding and then recurses on the EXPRESSION side: it hands
`UpdateExprMap` the binding's tuple of variables together with
`adjoint_expr[V]` itself — the increments folded into the elements are the
named components of `adjoint_expr[V]`, not `TupleProj(A, i)`. -/
theorem tuple_ctor_expression_side :
    ∀ (gm : List (String × GradFn)) (ty : String → StructType) (ss : Bool)
      (target : String) (st : ADState) (v : String) (es : ExprList) (ae : Expr),
      alookup st.adjointExprMap v = some ae →
      processBinding gm ty ss target st (v, .tupleCtor es) =
        .ok (UpdateExprMap (.tupleCtor es) ae
          (emitAndBind
            { st with adjointVarMap := (v, v ++ "_adjoint") :: st.adjointVarMap }
            (v ++ "_adjoint") ae)) := by
  intro gm ty ss target st v es ae h
  simp [processBinding, h, processRelevant]

/-- Claim C5 (amended) witness: the tuple demo binding is dispatched to
`UpdateExprMap` with the stored adjoint expression as the increment. -/
theorem tuple_ctor_expression_side_witness :
    processBinding [] tupleDemoTy true "g" tupleDemoSt tupleDemoBinding =
      .ok (UpdateExprMap (.tupleCtor (EL [.varRef "a", .varRef "b"]))
        (.tupleCtor (EL [.varRef "p", .varRef "q"]))
        (emitAndBind
          { tupleDemoSt with
              adjointVarMap := ("c", "c_adjoint") :: tupleDemoSt.adjointVarMap }
          "c_adjoint" (.tupleCtor (EL [.varRef "p", .varRef "q"])))) :=
  tuple_ctor_expression_side [] tupleDemoTy true "g" tupleDemoSt "c"
    (EL [.varRef "a", .varRef "b"]) (.tupleCtor (EL [.varRef "p", .varRef "q"])) rfl

/-- Claim C6: with the zero skeleton stored before the positional fold (the
draft's stated intent, used by `differentiate`), scenario S5 produces
`t_adjoint = (add(zeros, u_adjoint), zeros, zeros)` — only slot 0 is
replaced and untouched slots are structural zeros; the pseudocode as written,
however, discards the skeleton it builds and then reads the absent
`adjoint_expr_map_` entry, so the literal first-time update aborts. -/
theorem tuple_proj_zero_skeleton :
    runBindings s5gm (typeOfVar s5fn) false "g" initState s5fn.body.reverse =
      .error .internalInvariantViolation ∧
    exceptOk s5res = true ∧
    bindingExpr (adjointFn s5res) "t_adjoint" =
      .tupleCtor (EL [
        .call "relax.add" (EL [
          .call "relax.zeros" (EL [.shapeE [2, 2], .dtypeE "float32"]),
          .varRef "u_adjoint"]),
        .call "relax.zeros" (EL [.shapeE [3], .dtypeE "float32"]),
        .call "relax.zeros" (EL [.shapeE [4], .dtypeE "float32"])]) := by
  refine ⟨rfl, rfl, rfl⟩

/-- Claim C8: a successful checked dispatcher call returns exactly one
partial per argument with equal structural type, and a rule whose result
fails the type check makes the dispatcher fail with
`GradientShapeMismatch`. -/
theorem checked_partials_contract :
    (∀ (gm : List (String × GradFn)) (tyE : Expr → StructType) (op : String)
       (args : ExprList) (og : Expr) (ps : List Expr),
       checkedPartialsOf gm tyE op args og = .ok ps →
       ps.length = args.length ∧
       ∀ i, i < ps.length →
         tyE (ps.getD i (.constE 0)) = tyE (args.getD i (.constE 0))) ∧
    (∀ (gm : List (String × GradFn)) (tyE : Expr → StructType) (op : String)
       (args : ExprList) (og : Expr) (g : GradFn),
       alookup gm op = some g →
       typesOk tyE (g args og) args = false →
       checkedPartialsOf gm tyE op args og = .error .gradientShapeMismatch) := by
  constructor
  · intro gm tyE op args og ps h
    unfold checkedPartialsOf at h
    cases hg : alookup gm op with
    | none => rw [hg] at h; exact absurd h (by simp)
    | some g =>
      simp only [hg] at h
      split at h
      next hc =>
        cases h
        rw [Bool.and_eq_true] at hc
        exact ⟨of_decide_eq_true hc.1, typesOk_pointwise tyE _ _ hc.2⟩
      next hc => exact absurd h (by simp)
  · intro gm tyE op args og g hg hbad
    simp [checkedPartialsOf, hg, hbad]

/-- Claim C8 witness: the demo rule returns one partial of the argument's
type, and the checked dispatcher accepts it. -/
theorem checked_partials_contract_witness :
    ([Expr.varRef "og"] : List Expr).length =
      (EL [Expr.varRef "x"]).length ∧
    demoTyE (([Expr.varRef "og"] : List Expr).getD 0 (.constE 0)) =
      demoTyE ((EL [Expr.varRef "x"]).getD 0 (.constE 0)) := by
  have h := checked_partials_contract.1 demoRules demoTyE "relax.exp"
    (EL [.varRef "x"]) (.varRef "og") [.varRef "og"] rfl
  exact ⟨h.1, h.2 0 (by decide)⟩

end RelaxAD
